import Mathlib

/-
Verification of the document-synchronization layer of lumi-litellm.

The definitions below are a shallow embedding of the TypeScript sources:
  - `ApiService` (frontend/src/services/api.service.ts): the WebSocket
    channel registry (`connectDocumentSocket`, `closeAllWebSockets`), the
    per-channel `ws.onmessage` handler, and the HTTP entry points
    (`requestPaperImport`, `getImportStatus`, `getDocument`).
  - `HomeService` (frontend/src/services/home.service.ts): the metadata
    cache (`loadMetadata`, `setCurrentCollection`, `currentCollectionId`).

JavaScript `Map<string, V>` objects are embedded as association lists with
unique keys; JSON values as the inductive `Json`; `JSON.parse` of a raw
frame as `Option Json` (`none` models a parse that throws).
-/

/-! ## JSON values and JavaScript truthiness -/

/-- A parsed JSON value (the possible results of `JSON.parse`). -/
inductive Json where
  | null : Json
  | bool (b : Bool) : Json
  | num (n : Int) : Json
  | str (s : String) : Json
  | arr (elems : List Json) : Json
  | obj (fields : List (String × Json)) : Json

/-- Association-list lookup, mirroring `Map.get` / JS object field access
(`none` models `undefined`). -/
def mapGet {α : Type} (m : List (String × α)) (k : String) : Option α :=
  match m with
  | [] => none
  | (k2, v) :: rest => if k2 = k then some v else mapGet rest k

/-- Association-list update, mirroring `Map.set`: replaces the binding for
`k` when present, otherwise appends it. -/
def mapSet {α : Type} (m : List (String × α)) (k : String) (v : α) :
    List (String × α) :=
  match m with
  | [] => [(k, v)]
  | (k2, v2) :: rest =>
      if k2 = k then (k, v) :: rest else (k2, v2) :: mapSet rest k v

/-- Association-list removal, mirroring `Map.delete`. -/
def mapDelete {α : Type} (m : List (String × α)) (k : String) :
    List (String × α) :=
  match m with
  | [] => []
  | (k2, v2) :: rest =>
      if k2 = k then rest else (k2, v2) :: mapDelete rest k

/-- Field access `value.k` on a parsed JSON value: a lookup on objects,
`undefined` (`none`) on every non-object. (Access on `null` throws in JS;
that case is handled by `handleParsed`, not here.) -/
def Json.getField (j : Json) (k : String) : Option Json :=
  match j with
  | Json.obj fields => mapGet fields k
  | _ => none

/-- JavaScript truthiness of a parsed JSON value. -/
def Json.truthy (j : Json) : Bool :=
  match j with
  | Json.null => false
  | Json.bool b => b
  | Json.num n => n != 0
  | Json.str s => s != ""
  | Json.arr _ => true
  | Json.obj _ => true

/-! ## The per-channel `ws.onmessage` handler

`ApiService.connectDocumentSocket` installs an `onmessage` handler that
parses the frame with `JSON.parse`, logs it, and calls
`onUpdate(message.data || message)`; any exception (a parse failure, or a
property access on a `null` message) is caught and only logged — the catch
block neither closes the socket, nor touches the registry, nor calls
`onError`. `onError` is invoked only by the separate `ws.onerror`
transport-error handler. -/

/-- Observable state of one channel, as seen through the handler's
effects: whether the underlying socket is open, whether it is still in the
registry, the arguments delivered to `onUpdate` (in order), and how many
times `onError` was invoked. `arxivId`/`version` form the channel's
DocumentKey. -/
structure ChanState where
  arxivId : String
  version : String
  isOpen : Bool
  registered : Bool
  delivered : List Json
  errorsReported : Nat

/-- The argument of `onUpdate(message.data || message)`: the `data` field
when it is present and truthy, otherwise the whole envelope. -/
def envelopeUpdateArg (message : Json) : Json :=
  match message.getField "data" with
  | some d => if d.truthy then d else message
  | none => message

/-- Effect of the handler body on a successfully parsed message: the value
passed to `onUpdate`, or `none` when the body aborts before the call
(property access such as `message.paper_id` on a parsed `null` throws a
TypeError, which the surrounding catch swallows). -/
def handleParsed (message : Json) : Option Json :=
  match message with
  | Json.null => none
  | m => some (envelopeUpdateArg m)

/-- One inbound frame through `ws.onmessage`. `none` models a frame on
which `JSON.parse` throws: the catch block only logs, so the channel state
is untouched — in particular the handler never closes the socket, never
deletes the registry entry, and never calls `onError`. -/
def stepFrame (st : ChanState) (frame : Option Json) : ChanState :=
  match frame with
  | none => st
  | some message =>
      match handleParsed message with
      | none => st
      | some arg => { st with delivered := st.delivered ++ [arg] }

/-- A finite sequence of inbound frames, processed in arrival order. -/
def processFrames (st : ChanState) (frames : List (Option Json)) : ChanState :=
  frames.foldl stepFrame st

/-- The `onUpdate` argument an inbound frame produces, if any. -/
def frameDelivery (frame : Option Json) : Option Json :=
  match frame with
  | none => none
  | some m => handleParsed m

/-- The `ws.onerror` handler: `if (onError) onError(error)` — the one
place the channel's error callback is invoked. -/
def wsOnErrorStep (hasOnError : Bool) (st : ChanState) : ChanState :=
  if hasOnError then { st with errorsReported := st.errorsReported + 1 } else st

/-- A fresh channel for DocumentKey `("A", "1")` with no activity yet. -/
def chanA1 : ChanState :=
  { arxivId := "A", version := "1", isOpen := true, registered := true
    delivered := [], errorsReported := 0 }

/-! ### Handler lemmas -/

theorem stepFrame_isOpen (st : ChanState) (frame : Option Json) :
    (stepFrame st frame).isOpen = st.isOpen := by
  cases frame with
  | none => rfl
  | some m =>
      simp only [stepFrame]
      cases h : handleParsed m <;> rfl

theorem stepFrame_registered (st : ChanState) (frame : Option Json) :
    (stepFrame st frame).registered = st.registered := by
  cases frame with
  | none => rfl
  | some m =>
      simp only [stepFrame]
      cases h : handleParsed m <;> rfl

theorem stepFrame_errors (st : ChanState) (frame : Option Json) :
    (stepFrame st frame).errorsReported = st.errorsReported := by
  cases frame with
  | none => rfl
  | some m =>
      simp only [stepFrame]
      cases h : handleParsed m <;> rfl

theorem stepFrame_delivered (st : ChanState) (frame : Option Json) :
    (stepFrame st frame).delivered
      = st.delivered ++ (frameDelivery frame).toList := by
  cases frame with
  | none => simp [stepFrame, frameDelivery]
  | some m =>
      simp only [stepFrame, frameDelivery]
      cases h : handleParsed m <;> simp

theorem processFrames_spec (frames : List (Option Json)) (st : ChanState) :
    (processFrames st frames).isOpen = st.isOpen ∧
    (processFrames st frames).registered = st.registered ∧
    (processFrames st frames).errorsReported = st.errorsReported ∧
    (processFrames st frames).delivered
      = st.delivered ++ frames.filterMap frameDelivery := by
  induction frames generalizing st with
  | nil => simp [processFrames]
  | cons f rest ih =>
      have h := ih (stepFrame st f)
      simp only [processFrames, List.foldl_cons] at h ⊢
      rcases h with ⟨h1, h2, h3, h4⟩
      refine ⟨?_, ?_, ?_, ?_⟩
      · rw [h1, stepFrame_isOpen]
      · rw [h2, stepFrame_registered]
      · rw [h3, stepFrame_errors]
      · rw [h4, stepFrame_delivered]
        cases hf : frameDelivery f <;> simp [List.filterMap_cons, hf]

/-! ### Concrete frames used in witnesses and counterexamples -/

/-- Payload of a well-formed data frame. -/
def mismatchPayload : Json := Json.obj [("abstract", Json.str "p")]

/-- A frame that parses successfully but whose envelope names paper "B",
not the key ("A", "1") of the channel it arrives on. -/
def mismatchFrame : Json :=
  Json.obj [("paper_id", Json.str "B"), ("version", Json.str "1"),
            ("type", Json.str "data"), ("data", mismatchPayload)]

/-- Fields of a status envelope with no `data` field at all. -/
def statusFields : List (String × Json) :=
  [("paper_id", Json.str "A"), ("version", Json.str "1"),
   ("type", Json.str "status")]

/-! ### Claim theorems about the message handler -/

/-- C2: a frame whose content fails to decode (`JSON.parse` throws) never
closes the channel and never removes it from the registry, and every
well-formed frame around it — before or after — is still delivered to
`onUpdate`, in order, exactly as if the malformed frame were absent. -/
theorem c2_malformed_frame_harmless (st : ChanState)
    (pre post : List (Option Json)) :
    (processFrames st (pre ++ (none : Option Json) :: post)).isOpen = st.isOpen ∧
    (processFrames st (pre ++ (none : Option Json) :: post)).registered
      = st.registered ∧
    (processFrames st (pre ++ (none : Option Json) :: post)).delivered
      = st.delivered ++ pre.filterMap frameDelivery
          ++ post.filterMap frameDelivery := by
  obtain ⟨h1, h2, _, h4⟩ :=
    processFrames_spec (pre ++ (none : Option Json) :: post) st
  refine ⟨h1, h2, ?_⟩
  rw [h4]
  simp [List.filterMap_append, List.filterMap_cons, frameDelivery]

/-- C3 counterexample: an undecodable frame on a fresh channel invokes no
observer callback at all — `onUpdate` receives nothing and `onError` is
never called (the state is completely unchanged), so the decode error is
silent, contrary to the claim. -/
theorem c3_decode_error_silent_counterexample :
    stepFrame chanA1 none = chanA1 ∧
    (stepFrame chanA1 none).errorsReported = 0 ∧
    (stepFrame chanA1 none).delivered = [] :=
  ⟨rfl, rfl, rfl⟩

/-- C3 amended: a decode failure is caught and logged only — any number of
malformed frames leaves the channel state (open flag, registration,
delivered updates, `onError` count) entirely unchanged; the `onError`
callback fires only from the separate `ws.onerror` transport-error
handler. -/
theorem c3_decode_errors_logged_only (st : ChanState) (n : Nat) :
    processFrames st (List.replicate n (none : Option Json)) = st ∧
    (wsOnErrorStep true st).errorsReported = st.errorsReported + 1 := by
  constructor
  · induction n generalizing st with
    | zero => rfl
    | succ k ih =>
        rw [List.replicate_succ]
        exact ih st
  · rfl

/-- C4 counterexample: the channel is keyed by paper "A", the frame's
envelope names paper "B" (a key mismatch), yet the frame's payload is
still delivered to `onUpdate` — the handler performs no key check and the
mismatch is not treated as a decode error. -/
theorem c4_mismatch_delivered_counterexample :
    chanA1.arxivId = "A" ∧
    Json.getField mismatchFrame "paper_id" = some (Json.str "B") ∧
    Json.str "B" ≠ Json.str "A" ∧
    (stepFrame chanA1 (some mismatchFrame)).delivered = [mismatchPayload] :=
  ⟨rfl, rfl, by simp, rfl⟩

/-- C4 amended: `ws.onmessage` never compares the envelope's
`paper_id`/`version` with the channel's DocumentKey: for every channel
state and every successfully parsed non-null message — whether its
`paper_id`/`version` match the channel's key, differ from it, or are
absent — the message is delivered to `onUpdate` (as `data` when truthy,
else the whole envelope) and the rest of the channel state is untouched;
only a `JSON.parse` failure prevents delivery. -/
theorem c4_no_key_check (st : ChanState) (m : Json)
    (hnotnull : m ≠ Json.null) :
    stepFrame st (some m)
      = { st with delivered := st.delivered ++ [envelopeUpdateArg m] } := by
  cases m with
  | null => exact absurd rfl hnotnull
  | bool b => rfl
  | num n => rfl
  | str s => rfl
  | arr elems => rfl
  | obj fields => rfl

theorem c4_no_key_check_witness :
    stepFrame chanA1 (some mismatchFrame)
      = { chanA1 with
          delivered := chanA1.delivered ++ [envelopeUpdateArg mismatchFrame] } :=
  c4_no_key_check chanA1 mismatchFrame (by simp [mismatchFrame])

/-- C9: when a frame parses to an envelope object whose `data` field is
absent or falsy, `onUpdate` is invoked with the entire parsed envelope
object (so `paper_id`, `version` and `type` are all visible to the
callback) instead of the frame being dropped. -/
theorem c9_envelope_fallback (st : ChanState) (fields : List (String × Json))
    (habsent : Json.getField (Json.obj fields) "data" = none ∨
      ∃ d, Json.getField (Json.obj fields) "data" = some d ∧ d.truthy = false) :
    stepFrame st (some (Json.obj fields))
      = { st with delivered := st.delivered ++ [Json.obj fields] } := by
  have harg : envelopeUpdateArg (Json.obj fields) = Json.obj fields := by
    rcases habsent with h | ⟨d, hd, hfalsy⟩
    · simp [envelopeUpdateArg, h]
    · simp [envelopeUpdateArg, hd, hfalsy]
  simp [stepFrame, handleParsed, harg]

theorem c9_envelope_fallback_witness :
    stepFrame chanA1 (some (Json.obj statusFields))
      = { chanA1 with
          delivered := chanA1.delivered ++ [Json.obj statusFields] } :=
  c9_envelope_fallback chanA1 statusFields (Or.inl rfl)

/-! ## The `ApiService` WebSocket registry

`connectDocumentSocket(arxivId, version)` computes the key
`arxivId + "_" + version`; if `this.websockets` already holds a socket for
that key it calls `.close()` on it (no callback of the caller is invoked
for this internal replacement), then it creates a fresh `WebSocket`,
stores it in the map under the key, and returns it.
`closeAllWebSockets()` calls `.close()` on every registered socket and
clears the map. The asynchronous `ws.onclose` handler (which deletes the
socket's key from the map when the close event is later delivered) is
modeled by `deliverCloseEvent`; close events never run between
synchronous calls. -/

/-- One `WebSocket` created by the service: its registry key, its creation
index `sid` (sockets are numbered in creation order), and whether
`.close()` has been called on it (once it has, the socket is no longer an
open channel). -/
structure Socket where
  key : String
  sid : Nat
  closeCalled : Bool
deriving DecidableEq

/-- The `ApiService` state: the `websockets` map (key to socket id), every
socket created so far, and how many times an error has been surfaced to a
caller of `connectDocumentSocket` (no registry operation ever surfaces
one; only `ws.onerror` would, for transport errors). -/
structure ApiState where
  websockets : List (String × Nat)
  sockets : List Socket
  errorsSurfaced : Nat
deriving DecidableEq

/-- The state of a freshly constructed `ApiService`. -/
def initialApiState : ApiState :=
  { websockets := [], sockets := [], errorsSurfaced := 0 }

/-- The registry key: the string concatenation used by the source. -/
def wsKeyOf (arxivId version : String) : String :=
  arxivId ++ "_" ++ version

/-- Calling `.close()` on the socket with id `sid`. -/
def markCloseCalled (sockets : List Socket) (sid : Nat) : List Socket :=
  sockets.map fun s => if s.sid = sid then { s with closeCalled := true } else s

/-- `ApiService.connectDocumentSocket`: close the previously registered
socket for the key if any, create a new socket, register it under the key.
No validation of `arxivId`/`version` is performed, and no error callback
is invoked. -/
def connectDocumentSocket (st : ApiState) (arxivId version : String) :
    ApiState :=
  let wsKey := wsKeyOf arxivId version
  let sockets1 :=
    match mapGet st.websockets wsKey with
    | some sid => markCloseCalled st.sockets sid
    | none => st.sockets
  { st with
    sockets :=
      sockets1 ++ [{ key := wsKey, sid := st.sockets.length, closeCalled := false }]
    websockets := mapSet st.websockets wsKey st.sockets.length }

/-- `ApiService.closeAllWebSockets`: `.close()` every registered socket,
then clear the registry map. -/
def closeAllWebSockets (st : ApiState) : ApiState :=
  { st with
    sockets := st.sockets.map fun s =>
      if st.websockets.any (fun e => e.2 = s.sid) then { s with closeCalled := true }
      else s
    websockets := [] }

/-- Delivery of a socket's asynchronous close event: `ws.onclose` deletes
the socket's key from the registry map (whatever that key currently maps
to). -/
def deliverCloseEvent (st : ApiState) (sock : Socket) : ApiState :=
  { st with websockets := mapDelete st.websockets sock.key }

/-- `n` successive `connectDocumentSocket` calls with the same
`(arxivId, version)` on a fresh service. -/
def connectSeq (arxivId version : String) : Nat → ApiState
  | 0 => initialApiState
  | n + 1 => connectDocumentSocket (connectSeq arxivId version n) arxivId version

/-- The sockets present after `count` connect calls with key `key`: one
per call, in creation order, every one but the last closed. -/
def seqSockets (key : String) (count : Nat) : List Socket :=
  (List.range count).map fun i =>
    { key := key, sid := i, closeCalled := decide (i + 1 ≠ count) }

/-! ### Registry lemmas -/

theorem mapGet_mapSet_self {α : Type} (m : List (String × α)) (k : String)
    (v : α) : mapGet (mapSet m k v) k = some v := by
  induction m with
  | nil => simp [mapSet, mapGet]
  | cons hd rest ih =>
      obtain ⟨k2, v2⟩ := hd
      by_cases h : k2 = k
      · simp [mapSet, mapGet, h]
      · simp [mapSet, mapGet, h, ih]

theorem seqSockets_length (key : String) (count : Nat) :
    (seqSockets key count).length = count := by
  simp [seqSockets]

theorem seqSockets_succ (key : String) (k : Nat) :
    markCloseCalled (seqSockets key (k + 1)) k
        ++ [{ key := key, sid := k + 1, closeCalled := false }]
      = seqSockets key (k + 2) := by
  have h1 : markCloseCalled (seqSockets key (k + 1)) k
      = (List.range (k + 1)).map
          (fun i => { key := key, sid := i, closeCalled := true }) := by
    simp only [markCloseCalled, seqSockets, List.map_map]
    refine List.map_congr_left ?_
    intro i hi
    have hlt : i < k + 1 := List.mem_range.mp hi
    simp only [Function.comp_apply]
    by_cases h : i = k
    · subst h
      simp
    · have hne : i + 1 ≠ k + 1 := by omega
      simp [h, hne]
  have h2 : seqSockets key (k + 2)
      = (List.range (k + 1)).map
          (fun i => { key := key, sid := i, closeCalled := true })
        ++ [{ key := key, sid := k + 1, closeCalled := false }] := by
    have hr : List.range (k + 2) = List.range (k + 1) ++ [k + 1] :=
      List.range_succ (k + 1)
    simp only [seqSockets, hr, List.map_append, List.map_cons, List.map_nil]
    refine congrArg₂ _ ?_ ?_
    · refine List.map_congr_left ?_
      intro i hi
      have hlt : i < k + 1 := List.mem_range.mp hi
      have hne : i + 1 ≠ k + 2 := by omega
      simp [hne]
    · simp
  rw [h1, h2]

theorem connectSeq_closed_form (arxivId version : String) (n : Nat) :
    connectSeq arxivId version (n + 1)
      = { websockets := [(wsKeyOf arxivId version, n)]
          sockets := seqSockets (wsKeyOf arxivId version) (n + 1)
          errorsSurfaced := 0 } := by
  induction n with
  | zero =>
      simp [connectSeq, connectDocumentSocket, initialApiState, mapGet,
        mapSet, seqSockets, List.range_succ]
  | succ k ih =>
      show connectDocumentSocket (connectSeq arxivId version (k + 1))
            arxivId version = _
      rw [ih]
      simp only [connectDocumentSocket, mapGet, mapSet, seqSockets_length,
        eq_self_iff_true, if_true]
      rw [seqSockets_succ]

theorem mapGet_mem {α : Type} (m : List (String × α)) (k : String) (v : α)
    (h : mapGet m k = some v) : (k, v) ∈ m := by
  induction m with
  | nil => simp [mapGet] at h
  | cons hd rest ih =>
      obtain ⟨k2, v2⟩ := hd
      by_cases hk : k2 = k
      · subst hk
        simp [mapGet] at h
        subst h
        exact List.mem_cons_self _ _
      · simp [mapGet, hk] at h
        exact List.mem_cons_of_mem _ (ih h)

theorem closeAll_empty (st : ApiState) (h : st.websockets = []) :
    closeAllWebSockets st = st := by
  obtain ⟨ws, socks, errs⟩ := st
  simp only at h
  subst h
  simp [closeAllWebSockets]

/-! ### Claim theorems about the registry -/

/-- C1: after any sequence of `n + 1` `connectDocumentSocket` calls with
the same `(arxivId, version)` on a fresh service, the registry holds
exactly one entry for that key — the socket created by the last call,
which is still open — every socket created by an earlier call has been
closed, exactly `n + 1` sockets were created, and no error was surfaced
to the caller for any of the internal replacements. -/
theorem c1_connect_last_wins (arxivId version : String) (n : Nat) :
    (connectSeq arxivId version (n + 1)).websockets
      = [(wsKeyOf arxivId version, n)] ∧
    (∀ s ∈ (connectSeq arxivId version (n + 1)).sockets,
        s.sid = n → s.closeCalled = false) ∧
    (∀ s ∈ (connectSeq arxivId version (n + 1)).sockets,
        s.sid < n → s.closeCalled = true) ∧
    (connectSeq arxivId version (n + 1)).sockets.length = n + 1 ∧
    (connectSeq arxivId version (n + 1)).errorsSurfaced = 0 := by
  rw [connectSeq_closed_form]
  refine ⟨rfl, ?_, ?_, seqSockets_length _ _, rfl⟩
  · intro s hs hsid
    simp only [seqSockets, List.mem_map, List.mem_range] at hs
    obtain ⟨i, hi, rfl⟩ := hs
    simp only at hsid
    subst hsid
    simp
  · intro s hs hsid
    simp only [seqSockets, List.mem_map, List.mem_range] at hs
    obtain ⟨i, hi, rfl⟩ := hs
    simp only at hsid
    simp only [decide_eq_true_eq]
    omega

/-- C8: `closeAllWebSockets` closes every socket that was registered at
the time of the call and leaves the registry empty; it is idempotent —
on an empty registry it is a no-op, and a second call leaves exactly the
state of the first. -/
theorem c8_closeAll_idempotent (st : ApiState) :
    (closeAllWebSockets st).websockets = [] ∧
    (∀ k sid, mapGet st.websockets k = some sid →
      ∀ s ∈ (closeAllWebSockets st).sockets,
        s.sid = sid → s.closeCalled = true) ∧
    (st.websockets = [] → closeAllWebSockets st = st) ∧
    closeAllWebSockets (closeAllWebSockets st) = closeAllWebSockets st := by
  refine ⟨rfl, ?_, closeAll_empty st, ?_⟩
  · intro k sid hget s hs hsid
    simp only [closeAllWebSockets, List.mem_map] at hs
    obtain ⟨s0, hs0, rfl⟩ := hs
    have hany : st.websockets.any (fun e => e.2 = s0.sid) = true := by
      refine List.any_eq_true.mpr ⟨(k, sid), mapGet_mem _ _ _ hget, ?_⟩
      by_cases h : st.websockets.any (fun e => e.2 = s0.sid) = true
      all_goals
        simp only [decide_eq_true_eq]
        revert hsid
        by_cases hc : st.websockets.any (fun e => e.2 = s0.sid)
        · simp [hc]
          intro h2
          omega
        · simp [hc]
          intro h2
          omega
    simp [hany]
  · exact closeAll_empty _ rfl

/-! ## HTTP entry points of `ApiService`

Each entry point below returns the request it hands to `fetchApi`, or
`none` for an input it rejects before reaching the backend. The source
performs no input validation, so each is unconditionally `some`. -/

/-- An HTTP request handed to `fetchApi`. -/
structure ApiRequest where
  httpMethod : String
  endpoint : String
  body : Option String
deriving DecidableEq

/-- `ApiService.requestPaperImport`: POST `/api/papers/import` with body
`{arxiv_id: arxivId}`, for every `arxivId` — nothing is rejected. -/
def requestPaperImport (arxivId : String) : Option ApiRequest :=
  some { httpMethod := "POST", endpoint := "/api/papers/import",
         body := some arxivId }

/-- `ApiService.getImportStatus`: GET `/api/papers/status/id/version`,
for every input — nothing is rejected. -/
def getImportStatus (arxivId version : String) : Option ApiRequest :=
  some { httpMethod := "GET",
         endpoint := "/api/papers/status/" ++ arxivId ++ "/" ++ version,
         body := none }

/-- `ApiService.getDocument`: GET `/api/documents/id/version`, for every
input — nothing is rejected. -/
def getDocument (arxivId version : String) : Option ApiRequest :=
  some { httpMethod := "GET",
         endpoint := "/api/documents/" ++ arxivId ++ "/" ++ version,
         body := none }

/-- C6 counterexample: with empty id and version nothing is rejected —
`connectDocumentSocket` still opens and registers a channel (under the
degenerate key "_"), and the other entry points still issue backend
requests whose paths embed the empty segments. -/
theorem c6_empty_inputs_accepted_counterexample :
    (connectDocumentSocket initialApiState "" "").websockets = [("_", 0)] ∧
    (connectDocumentSocket initialApiState "" "").sockets
      = [{ key := "_", sid := 0, closeCalled := false }] ∧
    requestPaperImport ""
      = some { httpMethod := "POST", endpoint := "/api/papers/import",
               body := some "" } ∧
    getImportStatus "" ""
      = some { httpMethod := "GET", endpoint := "/api/papers/status//",
               body := none } ∧
    getDocument "" ""
      = some { httpMethod := "GET", endpoint := "/api/documents//",
               body := none } :=
  ⟨rfl, rfl, rfl, by decide, by decide⟩

/-- C6 amended: none of the entry points validates its id/version inputs:
for every input, empty or not, `connectDocumentSocket` creates a socket
and registers it under `wsKeyOf arxivId version`, and
`requestPaperImport`/`getImportStatus`/`getDocument` issue their backend
requests with the inputs spliced into the path or body verbatim. -/
theorem c6_no_input_validation (st : ApiState) (arxivId version : String) :
    mapGet (connectDocumentSocket st arxivId version).websockets
        (wsKeyOf arxivId version) = some st.sockets.length ∧
    (connectDocumentSocket st arxivId version).sockets.length
      = st.sockets.length + 1 ∧
    requestPaperImport arxivId
      = some { httpMethod := "POST", endpoint := "/api/papers/import",
               body := some arxivId } ∧
    getImportStatus arxivId version
      = some { httpMethod := "GET",
               endpoint := "/api/papers/status/" ++ arxivId ++ "/" ++ version,
               body := none } ∧
    getDocument arxivId version
      = some { httpMethod := "GET",
               endpoint := "/api/documents/" ++ arxivId ++ "/" ++ version,
               body := none } := by
  refine ⟨?_, ?_, rfl, rfl, rfl⟩
  · simp only [connectDocumentSocket]
    exact mapGet_mapSet_self _ _ _
  · simp only [connectDocumentSocket]
    cases h : mapGet st.websockets (wsKeyOf arxivId version) <;>
      simp [markCloseCalled]

/-! ## The `HomeService` metadata cache

`HomeService.loadMetadata(paperIds, forceReload)` iterates over the ids:
it skips falsy ids and ids whose map entry is already truthy (unless
`forceReload`); otherwise it asks the local history service
(`getPaperData(paperId)?.metadata`) and stores the metadata in
`paperToMetadataMap` when found; when the local store has nothing it
skips the id — the remote fetch is explicitly not performed (the source
logs "Skipping Firebase metadata fetch ... (use API backend instead)"
and the fetch code is commented out). It never deletes a map entry. -/

/-- Arxiv metadata as stored in the cache (payload abstracted). -/
structure ArxivMetadata where
  title : String
deriving DecidableEq

/-- A collection, as referenced by `HomeService.currentCollection`. -/
structure ArxivCollection where
  collectionId : String
  paperIds : List String
deriving DecidableEq

/-- `HomeService` state. Map values are `Option ArxivMetadata` because a
JS `Map` can in principle hold `undefined` — storing `none` would be the
"negative/absent cache entry" that C7 rules out. `remoteFetches` records
every remote metadata fetch `loadMetadata` issues (the live code path
issues none). -/
structure HomeState where
  paperToMetadataMap : List (String × Option ArxivMetadata)
  remoteFetches : List String
  currentCollection : Option ArxivCollection
deriving DecidableEq

/-- A freshly constructed `HomeService`. -/
def homeInit : HomeState :=
  { paperToMetadataMap := [], remoteFetches := [], currentCollection := none }

/-- Truthiness of `this.paperToMetadataMap.get(paperId)`: true exactly
when the map holds a defined metadata object for the id. -/
def storedTruthy (m : List (String × Option ArxivMetadata)) (id : String) :
    Bool :=
  match mapGet m id with
  | some (some _) => true
  | _ => false

/-- One iteration of the `loadMetadata` loop for one paper id.
`getPaperData` is the local history collaborator,
`historyService.getPaperData(paperId)?.metadata`. -/
def loadMetadataStep (getPaperData : String → Option ArxivMetadata)
    (forceReload : Bool) (st : HomeState) (paperId : String) : HomeState :=
  if paperId = "" then st
  else if storedTruthy st.paperToMetadataMap paperId && !forceReload then st
  else
    match getPaperData paperId with
    | some md =>
        { st with
          paperToMetadataMap := mapSet st.paperToMetadataMap paperId (some md) }
    | none => st

/-- `HomeService.loadMetadata`: the loop over all given paper ids. -/
def loadMetadata (getPaperData : String → Option ArxivMetadata)
    (forceReload : Bool) (st : HomeState) (paperIds : List String) :
    HomeState :=
  paperIds.foldl (loadMetadataStep getPaperData forceReload) st

/-- `HomeService.setCurrentCollection`: unconditionally sets
`currentCollection` to `undefined` (collections migrated away from
Firebase), then loads metadata for the paper ids found in local storage
(`getPaperHistory().map(item => item.metadata?.paperId)` with the
undefined ids filtered out). The `currentCollectionId` argument is never
consulted. -/
def setCurrentCollection (getPaperData : String → Option ArxivMetadata)
    (paperHistory : List (Option String)) (st : HomeState)
    (_currentCollectionId : Option String) : HomeState :=
  let localPaperIds := paperHistory.filterMap (fun x => x)
  loadMetadata getPaperData false { st with currentCollection := none }
    localPaperIds

/-- The `currentCollectionId` getter:
`this.currentCollection?.collectionId`. -/
def currentCollectionId (st : HomeState) : Option String :=
  st.currentCollection.map ArxivCollection.collectionId

/-! ### Cache lemmas -/

theorem mapGet_mapSet_ne {α : Type} (m : List (String × α)) (k id : String)
    (v : α) (h : k ≠ id) : mapGet (mapSet m k v) id = mapGet m id := by
  induction m with
  | nil => simp [mapSet, mapGet, h]
  | cons hd rest ih =>
      obtain ⟨k2, v2⟩ := hd
      by_cases hk : k2 = k
      · subst hk
        simp [mapSet, mapGet, h, ih]
      · simp only [mapSet, hk, if_false]
        by_cases hk2 : k2 = id <;> simp [mapGet, hk2, ih]

theorem loadMetadataStep_fields (g : String → Option ArxivMetadata)
    (forceReload : Bool) (st : HomeState) (pid : String) :
    (loadMetadataStep g forceReload st pid).currentCollection
        = st.currentCollection ∧
    (loadMetadataStep g forceReload st pid).remoteFetches
        = st.remoteFetches := by
  unfold loadMetadataStep
  split
  · exact ⟨rfl, rfl⟩
  · split
    · exact ⟨rfl, rfl⟩
    · cases g pid <;> exact ⟨rfl, rfl⟩

theorem loadMetadata_fields (g : String → Option ArxivMetadata)
    (forceReload : Bool) (paperIds : List String) (st : HomeState) :
    (loadMetadata g forceReload st paperIds).currentCollection
        = st.currentCollection ∧
    (loadMetadata g forceReload st paperIds).remoteFetches
        = st.remoteFetches := by
  induction paperIds generalizing st with
  | nil => exact ⟨rfl, rfl⟩
  | cons i rest ih =>
      have hstep := loadMetadataStep_fields g forceReload st i
      have hrest := ih (loadMetadataStep g forceReload st i)
      simp only [loadMetadata, List.foldl_cons] at hrest ⊢
      exact ⟨hrest.1.trans hstep.1, hrest.2.trans hstep.2⟩

theorem loadMetadataStep_lookup (g : String → Option ArxivMetadata)
    (forceReload : Bool) (st : HomeState) (pid id : String) :
    mapGet (loadMetadataStep g forceReload st pid).paperToMetadataMap id
        = mapGet st.paperToMetadataMap id ∨
    (∃ md, g id = some md ∧
      mapGet (loadMetadataStep g forceReload st pid).paperToMetadataMap id
        = some (some md)) := by
  unfold loadMetadataStep
  split
  · exact Or.inl rfl
  · split
    · exact Or.inl rfl
    · cases hg : g pid with
      | none => exact Or.inl rfl
      | some md =>
          by_cases hid : pid = id
          · subst hid
            exact Or.inr ⟨md, hg, by simp [mapGet_mapSet_self]⟩
          · exact Or.inl (by simp [mapGet_mapSet_ne _ _ _ _ hid])

theorem loadMetadata_lookup (g : String → Option ArxivMetadata)
    (forceReload : Bool) (paperIds : List String) (st : HomeState)
    (id : String) :
    mapGet (loadMetadata g forceReload st paperIds).paperToMetadataMap id
        = mapGet st.paperToMetadataMap id ∨
    (∃ md, g id = some md ∧
      mapGet (loadMetadata g forceReload st paperIds).paperToMetadataMap id
        = some (some md)) := by
  induction paperIds generalizing st with
  | nil => exact Or.inl rfl
  | cons i rest ih =>
      have hrest := ih (loadMetadataStep g forceReload st i)
      simp only [loadMetadata, List.foldl_cons] at hrest ⊢
      rcases hrest with h | h
    
      · rcases loadMetadataStep_lookup g forceReload st i id with h2 | ⟨md, hg, h2⟩
        · exact Or.inl (h.trans h2)
        · exact Or.inr ⟨md, hg, h.trans h2⟩
      · exact Or.inr h

theorem loadMetadataStep_lookup_ne (g : String → Option ArxivMetadata)
    (forceReload : Bool) (st : HomeState) (pid id : String) (h : pid ≠ id) :
    mapGet (loadMetadataStep g forceReload st pid).paperToMetadataMap id
      = mapGet st.paperToMetadataMap id := by
  unfold loadMetadataStep
  split
  · rfl
  · split
    · rfl
    · cases g pid with
      | none => rfl
      | some md => simp [mapGet_mapSet_ne _ _ _ _ h]

theorem loadMetadata_keeps (g : String → Option ArxivMetadata)
    (paperIds : List String) (st : HomeState) (id : String)
    (md : ArxivMetadata)
    (h : mapGet st.paperToMetadataMap id = some (some md)) :
    mapGet (loadMetadata g false st paperIds).paperToMetadataMap id
      = some (some md) := by
  induction paperIds generalizing st with
  | nil => exact h
  | cons i rest ih =>
      simp only [loadMetadata, List.foldl_cons]
      refine ih (loadMetadataStep g false st i) ?_
      by_cases hpi : i = id
      · subst hpi
        unfold loadMetadataStep
        split
        · exact h
        · split
          · exact h
          · rename_i hguard
            exact absurd (by simp [storedTruthy, h]) hguard
      · rw [loadMetadataStep_lookup_ne g false st i id hpi]
        exact h

theorem loadMetadata_backfill (g : String → Option ArxivMetadata)
    (paperIds : List String) :
    ∀ (st : HomeState) (id : String) (md : ArxivMetadata),
      id ∈ paperIds → id ≠ "" → g id = some md →
      storedTruthy st.paperToMetadataMap id = false →
      mapGet (loadMetadata g false st paperIds).paperToMetadataMap id
        = some (some md) := by
  induction paperIds with
  | nil =>
      intro st id md hmem hne hg habsent
      simp at hmem
  | cons i rest ih =>
      intro st id md hmem hne hg habsent
      simp only [loadMetadata, List.foldl_cons]
      by_cases hpi : i = id
      · subst hpi
        have hstep : mapGet (loadMetadataStep g false st i).paperToMetadataMap i
            = some (some md) := by
          unfold loadMetadataStep
          rw [if_neg hne]
          rw [habsent]
          simp only [Bool.false_and, if_false]
          rw [hg]
          simp [mapGet_mapSet_self]
        exact loadMetadata_keeps g rest _ i md hstep
      · have hmem2 : id ∈ rest := by
          rcases List.mem_cons.mp hmem with h | h
          · exact absurd h.symm hpi
          · exact h
        refine ih (loadMetadataStep g false st i) id md hmem2 hne hg ?_
        unfold storedTruthy
        rw [loadMetadataStep_lookup_ne g false st i id hpi]
        exact habsent

/-! ### Claim theorems about the metadata cache -/

/-- C7: `loadMetadata` never poisons the cache: it never deletes an
entry, every entry it changes is set to a present, defined metadata
object, and for an id the local store has nothing for — the skipped
(never issued) remote fetch — the cache entry is left exactly as it was,
so a later retry is possible. -/
theorem c7_cache_never_poisoned (g : String → Option ArxivMetadata)
    (forceReload : Bool) (st : HomeState) (paperIds : List String) :
    (∀ id, (mapGet st.paperToMetadataMap id).isSome →
      (mapGet (loadMetadata g forceReload st paperIds).paperToMetadataMap
        id).isSome) ∧
    (∀ id,
      mapGet (loadMetadata g forceReload st paperIds).paperToMetadataMap id
          ≠ mapGet st.paperToMetadataMap id →
      ∃ md, g id = some md ∧
        mapGet (loadMetadata g forceReload st paperIds).paperToMetadataMap id
          = some (some md)) ∧
    (∀ id, g id = none →
      mapGet (loadMetadata g forceReload st paperIds).paperToMetadataMap id
        = mapGet st.paperToMetadataMap id) := by
  refine ⟨?_, ?_, ?_⟩
  · intro id hsome
    rcases loadMetadata_lookup g forceReload paperIds st id with h | ⟨md, _, h⟩
    · rw [h]
      exact hsome
    · rw [h]
      rfl
  · intro id hchanged
    rcases loadMetadata_lookup g forceReload paperIds st id with h | ⟨md, hg, h⟩
    · exact absurd h hchanged
    · exact ⟨md, hg, h⟩
  · intro id hgnone
    rcases loadMetadata_lookup g forceReload paperIds st id with h | ⟨md, hg, h⟩
    · exact h
    · rw [hgnone] at hg
      exact absurd hg (by simp)

/-- C5 counterexample: the paper id "2301.00001" is absent from both the
in-memory map and the local store, yet `loadMetadata` issues no remote
fetch and leaves the state unchanged — the id is never populated from
the remote, contrary to the claimed read-through behavior. -/
theorem c5_no_remote_fetch_counterexample :
    loadMetadata (fun _ => none) false homeInit ["2301.00001"] = homeInit ∧
    (loadMetadata (fun _ => none) false homeInit ["2301.00001"]).remoteFetches
      = [] ∧
    mapGet (loadMetadata (fun _ => none) false homeInit
        ["2301.00001"]).paperToMetadataMap "2301.00001" = none :=
  ⟨rfl, rfl, rfl⟩

/-- C5 amended: `loadMetadata` is a purely local read-through: it issues
no remote fetch at all; for an id absent from the in-memory map it copies
the local history service's metadata into the map when the local store
has it, and otherwise skips the id, leaving it absent. -/
theorem c5_local_only_read_through (g : String → Option ArxivMetadata)
    (st : HomeState) (paperIds : List String) (id : String)
    (md : ArxivMetadata) (hmem : id ∈ paperIds) (hne : id ≠ "")
    (habsent : mapGet st.paperToMetadataMap id = none) :
    (loadMetadata g false st paperIds).remoteFetches = st.remoteFetches ∧
    (g id = some md →
      mapGet (loadMetadata g false st paperIds).paperToMetadataMap id
        = some (some md)) ∧
    (g id = none →
      mapGet (loadMetadata g false st paperIds).paperToMetadataMap id
        = none) := by
  refine ⟨(loadMetadata_fields g false paperIds st).2, ?_, ?_⟩
  · intro hg
    refine loadMetadata_backfill g paperIds st id md hmem hne hg ?_
    simp [storedTruthy, habsent]
  · intro hg
    rcases loadMetadata_lookup g false paperIds st id with h | ⟨md2, hg2, _⟩
    · rw [h]
      exact habsent
    · rw [hg] at hg2
      exact absurd hg2 (by simp)

/-- A local history store holding metadata for the single paper "P1". -/
def historyP1 : String → Option ArxivMetadata :=
  fun i => if i = "P1" then some { title := "t" } else none

/-- The metadata `historyP1` holds for "P1". -/
def metadataT : ArxivMetadata :=
  { title := "t" }

theorem c5_local_only_read_through_witness :
    (loadMetadata historyP1 false homeInit ["P1"]).remoteFetches
        = homeInit.remoteFetches ∧
    (historyP1 "P1" = some metadataT →
      mapGet (loadMetadata historyP1 false homeInit
          ["P1"]).paperToMetadataMap "P1" = some (some metadataT)) ∧
    (historyP1 "P1" = none →
      mapGet (loadMetadata historyP1 false homeInit
          ["P1"]).paperToMetadataMap "P1" = none) :=
  c5_local_only_read_through historyP1 homeInit ["P1"] "P1" metadataT
    (by simp) (by decide) rfl

/-- C10: `setCurrentCollection` sets `currentCollection` to `undefined`
for every argument, so the `currentCollectionId` getter returns
`undefined` afterwards, and the passed-in collection id has no influence
at all on the resulting state. -/
theorem c10_setCurrentCollection_clears (g : String → Option ArxivMetadata)
    (paperHistory : List (Option String)) (st : HomeState)
    (a b : Option String) :
    (setCurrentCollection g paperHistory st a).currentCollection = none ∧
    currentCollectionId (setCurrentCollection g paperHistory st a) = none ∧
    setCurrentCollection g paperHistory st a
      = setCurrentCollection g paperHistory st b := by
  have h1 : (setCurrentCollection g paperHistory st a).currentCollection
      = none := by
    unfold setCurrentCollection
    rw [(loadMetadata_fields g false _ _).1]
  exact ⟨h1, by simp [currentCollectionId, h1], rfl⟩
